import Mathlib

/-!
Verification development for the LogicLayerWebsite page controller.

The definitions below are a shallow embedding of the client-side script
`src/script.js` (the `App` controller object) and, where noted, of the
legacy handler in `src/unnamed/part_001`.  Times are Nat milliseconds,
DOM handles are presence booleans, and event-handler bodies are modelled
as pure functions producing traces of their observable steps.
-/

namespace LogicLayer

/-- A toast payload as passed to `App.showToast`: title, message, and the
severity type (the `type` parameter defaults to `"success"` at the call
sites that omit it). -/
structure Toast where
  title : String
  message : String
  ty : String
deriving DecidableEq

/-- The submission record built by `Object.fromEntries(new FormData(form))`
in `handleFormSubmit`.  The four text inputs always contribute a string
(empty when the user typed nothing, and a missing control behaves like the
empty string under the `!data.field` truthiness test).  The optional
`service` selector is `none` when the control is absent from the form. -/
structure FormDataR where
  firstName : String
  lastName : String
  email : String
  message : String
  service : Option String
deriving DecidableEq

/-! ### The email validator: /^[^\s@]+@[^\s@]+\.[^\s@]+$/  -/

/-- A character matched by the regex class `[^\s@]`: neither whitespace
nor `'@'`. -/
def nsChar (c : Char) : Bool := !c.isWhitespace && c != '@'

/-- Whole-list match of the regex fragment `[^\s@]*\.[^\s@]+`: either the
dot is here and a nonempty `[^\s@]+` run finishes the list, or the head is
consumed by the star and the rest still matches. -/
def dotTail : List Char → Bool
  | [] => false
  | c :: cs => (c == '.' && !cs.isEmpty && cs.all nsChar) || (nsChar c && dotTail cs)

/-- Whole-list match of `[^\s@]+\.[^\s@]+` (the part after the `'@'`). -/
def domainPart : List Char → Bool
  | [] => false
  | c :: cs => nsChar c && dotTail cs

/-- Whole-list match of `[^\s@]*@[^\s@]+\.[^\s@]+`.  Since `'@'` is
excluded from the class, the first `'@'` seen is the mandatory one. -/
def emailTail : List Char → Bool
  | [] => false
  | c :: cs => if c == '@' then domainPart cs else nsChar c && emailTail cs

/-- The validator used by `handleFormSubmit`:
`/^[^\s@]+@[^\s@]+\.[^\s@]+$/.test(email)` (anchored at both ends). -/
def emailValid (s : String) : Bool :=
  match s.toList with
  | [] => false
  | c :: cs => nsChar c && emailTail cs

/-- The characterization of the validator used by the specification, taken
at its word: exactly one `'@'`, at least one `'.'` somewhere after it, and
no whitespace anywhere. -/
def claimEmailPattern (s : String) : Prop :=
  s.toList.count '@' = 1 ∧
  '.' ∈ (s.toList.dropWhile (fun c => c != '@')).drop 1 ∧
  ∀ c ∈ s.toList, ¬c.isWhitespace

instance (s : String) : Decidable (claimEmailPattern s) := by
  unfold claimEmailPattern; infer_instance

/-! ### The form submission pipeline (`App.handleFormSubmit`) -/

/-- One observable step performed by a submit handler. -/
inductive Ev
  | toast (t : Toast)
  | btnLabel (s : String)
  | btnDisabled (b : Bool)
  | simulatedDelay
  | errLog
  | log (d : FormDataR) (timestamp : Option String)
  | formReset
deriving DecidableEq

/-- Toast of the "fill in all required fields" rejection. -/
def missingFieldsToast : Toast :=
  ⟨"Error", "Please fill in all required fields.", "error"⟩

/-- Toast of the "valid email address" rejection. -/
def invalidEmailToast : Toast :=
  ⟨"Error", "Please enter a valid email address.", "error"⟩

/-- Toast shown on the success path of `App.handleFormSubmit`. -/
def successToast : Toast :=
  ⟨"Success", "Your message has been sent successfully!", "success"⟩

/-- Toast shown by the catch branch of `App.handleFormSubmit`. -/
def failureToast : Toast :=
  ⟨"Error", "Something went wrong. Please try again.", "error"⟩

/-- The guard `!data.firstName || !data.lastName || !data.email ||
!data.message`: a string field is falsy exactly when it is empty. -/
def requiredMissing (d : FormDataR) : Bool :=
  d.firstName.isEmpty || d.lastName.isEmpty || d.email.isEmpty || d.message.isEmpty

/-- `App.handleFormSubmit` from `src/script.js`, as the sequence of
observable steps it performs on one submission.  `callOk` is the outcome
of the awaited simulated API call: the reference promise always resolves
(`callOk = true`); the `catch` branch of lines 131-133 runs when it
rejects.  `origLabel` is the submit button's `textContent` at entry; the
`finally` block restores it and re-enables the button.  The only write to
the field contents anywhere in the handler is `form.reset()`. -/
def handleFormSubmit (callOk : Bool) (origLabel : String) (d : FormDataR) : List Ev :=
  if requiredMissing d then
    [.toast missingFieldsToast]
  else if !emailValid d.email then
    [.toast invalidEmailToast]
  else
    [.btnLabel "Sending...", .btnDisabled true] ++
    (if callOk then
      [.simulatedDelay, .log d none, .toast successToast, .formReset]
    else
      [.simulatedDelay, .errLog, .toast failureToast]) ++
    [.btnLabel origLabel, .btnDisabled false]

/-- The legacy contact-form submit handler from `src/unnamed/part_001`:
the same validation, then a single 1-second `setTimeout` whose callback
resets the form, restores the button, shows its success toast, and logs
the submitted data spread together with `timestamp: new
Date().toISOString()`.  `ts` is that ISO timestamp string; the handler has
no failure path. -/
def legacySubmitHandler (origLabel : String) (ts : String) (d : FormDataR) : List Ev :=
  if requiredMissing d then
    [.toast missingFieldsToast]
  else if !emailValid d.email then
    [.toast invalidEmailToast]
  else
    [.btnLabel "Sending...", .btnDisabled true, .simulatedDelay,
     .formReset, .btnLabel origLabel, .btnDisabled false,
     .toast ⟨"Success", "Your message has been sent successfully! We'll get back to you soon.", "success"⟩,
     .log d (some ts)]

/-- The toasts emitted along a trace, in order. -/
def toasts (l : List Ev) : List Toast :=
  l.filterMap fun e => match e with | .toast t => some t | _ => none

/-- The diagnostic-log records emitted along a trace: the logged submission
data together with the attached capture timestamp, if any. -/
def logRecords (l : List Ev) : List (FormDataR × Option String) :=
  l.filterMap fun e => match e with | .log d ts => some (d, ts) | _ => none

/-- Whether the simulated 1-second delay was entered on a trace. -/
def delayed (l : List Ev) : Bool :=
  l.any fun e => match e with | .simulatedDelay => true | _ => false

/-- Whether the form fields were cleared (`form.reset()`) on a trace. -/
def cleared (l : List Ev) : Bool :=
  l.any fun e => match e with | .formReset => true | _ => false

/-- The submit button's (label, disabled) state after a trace, starting
from its original label, enabled. -/
def finalButton (origLabel : String) (l : List Ev) : String × Bool :=
  l.foldl (fun st e => match e with
    | .btnLabel s => (s, st.2)
    | .btnDisabled b => (st.1, b)
    | _ => st) (origLabel, false)

/-- Erase the `service` field from logged payloads, leaving every
control-flow-visible part of a trace intact. -/
def eraseService : Ev → Ev
  | .log d ts => .log { d with service := none } ts
  | e => e

/-! ### Startup: `App.cacheDOMElements` and `App.bindEvents` -/

/-- Presence of each single DOM node looked up in `cacheDOMElements`
(`document.getElementById` returns null when the node is absent; the
`querySelectorAll` collections are safe empty lists in that case and are
not modelled per-node). -/
structure DomEnv where
  header : Bool
  mobileMenuToggle : Bool
  mobileMenuOverlay : Bool
  mobileMenuClose : Bool
  contactForm : Bool
  toast : Bool
  heroBackground : Bool
deriving DecidableEq

/-- One listener registration performed by `App.bindEvents`, in source
order. -/
inductive Binding
  | menuToggleClick
  | menuCloseClick
  | overlayClick
  | mobileNavLinkClose
  | anchorSmoothScroll
  | formSubmit
  | windowScrollThrottled
  | keydown
deriving DecidableEq

/-- `App.bindEvents`: registers listeners in source order.  Calling
`addEventListener` on a null handle throws a TypeError which propagates;
in the source only the contact form lookup is guarded
(`if (this.elements.contactForm)`), the three mobile-menu handles are
dereferenced unconditionally.  Returns the successfully wired bindings,
or the thrown error. -/
def bindEvents (el : DomEnv) : Except String (List Binding) := do
  if !el.mobileMenuToggle then
    throw "TypeError: cannot read addEventListener of null (mobile-menu-toggle)"
  if !el.mobileMenuClose then
    throw "TypeError: cannot read addEventListener of null (mobile-menu-close)"
  if !el.mobileMenuOverlay then
    throw "TypeError: cannot read addEventListener of null (mobile-menu-overlay)"
  pure ([.menuToggleClick, .menuCloseClick, .overlayClick,
         .mobileNavLinkClose, .anchorSmoothScroll] ++
        (if el.contactForm then [Binding.formSubmit] else []) ++
        [.windowScrollThrottled, .keydown])

/-- `App.init`: `cacheDOMElements` only stores the (possibly null)
handles, and `setupObservers`, `preloadAssets` and `pageLoadAnimation`
touch none of the required single handles and cannot throw, so `init`
propagates exactly the outcome of `bindEvents`. -/
def init (env : DomEnv) : Except String (List Binding) :=
  bindEvents env

/-- The bindings `bindEvents` performs when it completes: everything,
with the submit wiring present exactly when the contact form exists. -/
def wiredBindings (contactForm : Bool) : List Binding :=
  [.menuToggleClick, .menuCloseClick, .overlayClick,
   .mobileNavLinkClose, .anchorSmoothScroll] ++
  (if contactForm then [Binding.formSubmit] else []) ++
  [.windowScrollThrottled, .keydown]

/-! ### The throttled scroll handler (`App.throttle`, `App.handleScroll`) -/

/-- A scroll event: the time it fires (ms) and the scroll offset current
at that moment. -/
structure ScrollEv where
  t : Nat
  pos : Nat
deriving DecidableEq

/-- `App.throttle(func, limit)` driven by a chronological list of scroll
events: a leading-edge throttle around an `inThrottle` flag that a
`setTimeout` clears `limit` ms after each execution.  The state is the
time until which the flag is still set (`none` before the first call).
An event executes the wrapped handler exactly when the flag is clear at
its time; otherwise it is discarded.  Returns the events on which the
handler actually ran. -/
def throttleRun (limit : Nat) : List ScrollEv → Option Nat → List ScrollEv
  | [], _ => []
  | e :: rest, none => e :: throttleRun limit rest (some (e.t + limit))
  | e :: rest, some u =>
      if e.t < u then throttleRun limit rest (some u)
      else e :: throttleRun limit rest (some (e.t + limit))

/-- The throttled scroll listener registered in `bindEvents` with
`config.scrollThrottleLimit = 16`. -/
def throttledScroll (evs : List ScrollEv) : List ScrollEv :=
  throttleRun 16 evs none

/-- The most recent scroll position at time `t`: the offset of the last
event at or before `t`. -/
def lastPosAt (evs : List ScrollEv) (t : Nat) : Option Nat :=
  ((evs.filter (fun e => decide (e.t ≤ t))).map (·.pos)).getLast?

/-! ### The toast lifecycle (`App.showToast`) -/

/-- A call to `App.showToast` at time `t` (ms). -/
structure ToastCall where
  t : Nat
  toast : Toast
deriving DecidableEq

/-- An event on the toast element: the body of `showToast` (overwrite
content, add the `show` class) or the firing of one of its 5000 ms
auto-hide timers (remove the `show` class). -/
inductive TEv
  | show (tt : Toast)
  | hide
deriving DecidableEq

/-- The toast element's state: current content and whether the `show`
class is present. -/
structure ToastState where
  content : Option Toast
  visible : Bool
deriving DecidableEq

/-- Effect of one toast event on the element. -/
def stepT (st : ToastState) : TEv → ToastState
  | .show tt => ⟨some tt, true⟩
  | .hide => ⟨st.content, false⟩

/-- The timed events generated by a list of `showToast` calls: each call
shows at its own time and schedules an unconditional hide 5000 ms later.
The source keeps no handle to the previous timer and never clears it, so
every scheduled hide fires. -/
def toastEvents (calls : List ToastCall) : List (Nat × TEv) :=
  calls.map (fun c => (c.t, TEv.show c.toast)) ++
  calls.map (fun c => (c.t + 5000, TEv.hide))

/-- Insertion into a time-sorted list of toast events. -/
def insertT (p : Nat × TEv) : List (Nat × TEv) → List (Nat × TEv)
  | [] => [p]
  | q :: rest => if p.1 < q.1 then p :: q :: rest else q :: insertT p rest

/-- Time-sort a list of toast events. -/
def sortByTime (l : List (Nat × TEv)) : List (Nat × TEv) :=
  l.foldr insertT []

/-- The toast element's state at query time `q`: all events scheduled at
or before `q`, applied in time order to the initial hidden state. -/
def toastStateAt (calls : List ToastCall) (q : Nat) : ToastState :=
  ((sortByTime ((toastEvents calls).filter (fun p => decide (p.1 ≤ q)))).map
    Prod.snd).foldl stepT ⟨none, false⟩

/-! ## Theorems -/

/-- Claim C4: a submission with any of the four required fields empty is
rejected before the simulated 1-second delay begins, with exactly one
toast emitted — the error toast — and with no write to the field contents
(`form.reset()` is never reached). -/
theorem missing_fields_rejects_before_delay (callOk : Bool) (origLabel : String)
    (d : FormDataR) (h : requiredMissing d = true) :
    toasts (handleFormSubmit callOk origLabel d) = [missingFieldsToast] ∧
    missingFieldsToast.ty = "error" ∧
    delayed (handleFormSubmit callOk origLabel d) = false ∧
    cleared (handleFormSubmit callOk origLabel d) = false := by
  simp [handleFormSubmit, h, toasts, delayed, cleared, missingFieldsToast]

/-- Witness for C4: the concrete submission with an empty first name. -/
theorem missing_fields_rejects_before_delay_w :
    toasts (handleFormSubmit true "Send Message" ⟨"", "Doe", "jane@doe.com", "hello", none⟩) =
      [missingFieldsToast] ∧
    missingFieldsToast.ty = "error" ∧
    delayed (handleFormSubmit true "Send Message" ⟨"", "Doe", "jane@doe.com", "hello", none⟩) = false ∧
    cleared (handleFormSubmit true "Send Message" ⟨"", "Doe", "jane@doe.com", "hello", none⟩) = false :=
  missing_fields_rejects_before_delay true "Send Message"
    ⟨"", "Doe", "jane@doe.com", "hello", none⟩ (by decide)

/-- Claim C6: a well-formed submission (all four required fields
non-empty, email accepted by the validator) runs the full success path:
pending label, disabled button, the simulated delay, then the diagnostic
log, the success toast, `form.reset()`, and the button restoration. -/
theorem wellformed_submission_succeeds (origLabel : String) (d : FormDataR)
    (h1 : requiredMissing d = false) (h2 : emailValid d.email = true) :
    handleFormSubmit true origLabel d =
      [.btnLabel "Sending...", .btnDisabled true, .simulatedDelay,
       .log d none, .toast successToast, .formReset,
       .btnLabel origLabel, .btnDisabled false] ∧
    toasts (handleFormSubmit true origLabel d) = [successToast] ∧
    successToast.ty = "success" ∧
    cleared (handleFormSubmit true origLabel d) = true ∧
    delayed (handleFormSubmit true origLabel d) = true := by
  simp [handleFormSubmit, h1, h2, toasts, cleared, delayed, successToast]

/-- Witness for C6: a concrete well-formed submission. -/
theorem wellformed_submission_succeeds_w :
    handleFormSubmit true "Send Message" ⟨"Jane", "Doe", "jane@doe.com", "hello", some "web-dev"⟩ =
      [.btnLabel "Sending...", .btnDisabled true, .simulatedDelay,
       .log ⟨"Jane", "Doe", "jane@doe.com", "hello", some "web-dev"⟩ none,
       .toast successToast, .formReset,
       .btnLabel "Send Message", .btnDisabled false] ∧
    toasts (handleFormSubmit true "Send Message"
      ⟨"Jane", "Doe", "jane@doe.com", "hello", some "web-dev"⟩) = [successToast] ∧
    successToast.ty = "success" ∧
    cleared (handleFormSubmit true "Send Message"
      ⟨"Jane", "Doe", "jane@doe.com", "hello", some "web-dev"⟩) = true ∧
    delayed (handleFormSubmit true "Send Message"
      ⟨"Jane", "Doe", "jane@doe.com", "hello", some "web-dev"⟩) = true :=
  wellformed_submission_succeeds "Send Message"
    ⟨"Jane", "Doe", "jane@doe.com", "hello", some "web-dev"⟩ (by decide) (by decide)

/-- Counterexample to claim C7 as stated: on a concrete successful
submission, `App.handleFormSubmit` in src/script.js emits exactly one
diagnostic log record — `console.log('Form Submitted:', data)` — and that
record carries no capture timestamp. -/
theorem success_log_has_no_timestamp :
    logRecords (handleFormSubmit true "Send Message"
        ⟨"Jane", "Doe", "jane@doe.com", "hello", none⟩) =
      [(⟨"Jane", "Doe", "jane@doe.com", "hello", none⟩, none)] := by decide

/-- Claim C7 (amended): every successful submission is recorded to the
diagnostic log exactly once with the submitted data, but the capture
timestamp is attached only by the legacy handler in
src/unnamed/part_001; `App.handleFormSubmit` in src/script.js logs the
data without one. -/
theorem success_logged_timestamp_only_in_legacy (origLabel ts : String)
    (d : FormDataR) (h1 : requiredMissing d = false) (h2 : emailValid d.email = true) :
    logRecords (handleFormSubmit true origLabel d) = [(d, none)] ∧
    logRecords (legacySubmitHandler origLabel ts d) = [(d, some ts)] := by
  simp [handleFormSubmit, legacySubmitHandler, h1, h2, logRecords]

/-- Witness for the amended C7. -/
theorem success_logged_timestamp_only_in_legacy_w :
    logRecords (handleFormSubmit true "Send Message"
        ⟨"Jane", "Doe", "jane@doe.com", "hello", none⟩) =
      [(⟨"Jane", "Doe", "jane@doe.com", "hello", none⟩, none)] ∧
    logRecords (legacySubmitHandler "Send Message" "2026-10-11T00:00:00.000Z"
        ⟨"Jane", "Doe", "jane@doe.com", "hello", none⟩) =
      [(⟨"Jane", "Doe", "jane@doe.com", "hello", none⟩, some "2026-10-11T00:00:00.000Z")] :=
  success_logged_timestamp_only_in_legacy "Send Message" "2026-10-11T00:00:00.000Z"
    ⟨"Jane", "Doe", "jane@doe.com", "hello", none⟩ (by decide) (by decide)

/-- Claim C8: every submission that passes validation — whichever way the
awaited simulated call settles — ends with the submit button carrying its
original label and re-enabled, and those two restoring writes are the
final steps of the trace (the `finally` block runs last). -/
theorem button_restored_after_submit (callOk : Bool) (origLabel : String)
    (d : FormDataR) (h1 : requiredMissing d = false) (h2 : emailValid d.email = true) :
    finalButton origLabel (handleFormSubmit callOk origLabel d) = (origLabel, false) ∧
    ∃ pre, handleFormSubmit callOk origLabel d =
      pre ++ [.btnLabel origLabel, .btnDisabled false] := by
  cases callOk
  · exact ⟨by simp [handleFormSubmit, h1, h2, finalButton],
      [.btnLabel "Sending...", .btnDisabled true, .simulatedDelay, .errLog, .toast failureToast],
      by simp [handleFormSubmit, h1, h2]⟩
  · exact ⟨by simp [handleFormSubmit, h1, h2, finalButton],
      [.btnLabel "Sending...", .btnDisabled true, .simulatedDelay, .log d none,
       .toast successToast, .formReset],
      by simp [handleFormSubmit, h1, h2]⟩

/-- Witness for C8, exercising the rejecting simulated call. -/
theorem button_restored_after_submit_w :
    finalButton "Send Message" (handleFormSubmit false "Send Message"
        ⟨"Jane", "Doe", "jane@doe.com", "hello", none⟩) = ("Send Message", false) ∧
    ∃ pre, handleFormSubmit false "Send Message"
        ⟨"Jane", "Doe", "jane@doe.com", "hello", none⟩ =
      pre ++ [.btnLabel "Send Message", .btnDisabled false] :=
  button_restored_after_submit false "Send Message"
    ⟨"Jane", "Doe", "jane@doe.com", "hello", none⟩ (by decide) (by decide)

/-- Claim C9: the required-fields check runs before the email check: a
submission with a missing required field yields exactly the
missing-required-fields toast whatever its email looks like, and the
invalid-email toast can only appear when all four required fields are
non-empty. -/
theorem validation_checks_ordered (callOk : Bool) (origLabel : String) (d : FormDataR) :
    (requiredMissing d = true →
      handleFormSubmit callOk origLabel d = [.toast missingFieldsToast]) ∧
    (Ev.toast invalidEmailToast ∈ handleFormSubmit callOk origLabel d →
      requiredMissing d = false) := by
  constructor
  · intro h
    simp [handleFormSubmit, h]
  · intro hmem
    cases hreq : requiredMissing d with
    | false => rfl
    | true =>
      rw [handleFormSubmit, if_pos hreq] at hmem
      simp [invalidEmailToast, missingFieldsToast] at hmem

/-- Witness for C9: a submission both missing its message and carrying a
malformed email gets the missing-required-fields toast. -/
theorem validation_checks_ordered_w :
    handleFormSubmit true "Send Message" ⟨"Jane", "Doe", "not-an-email", "", none⟩ =
      [.toast missingFieldsToast] :=
  (validation_checks_ordered true "Send Message"
    ⟨"Jane", "Doe", "not-an-email", "", none⟩).1 (by decide)

/-- Claim C10: the optional `service` value never influences the
pipeline's control flow: two submissions agreeing on the four required
fields produce identical traces once the logged payload's `service`
entry is erased — same validation outcome, same toasts, same delay,
same clearing and button behavior. -/
theorem service_field_noninterference (callOk : Bool) (origLabel : String)
    (d1 d2 : FormDataR) (h1 : d1.firstName = d2.firstName)
    (h2 : d1.lastName = d2.lastName) (h3 : d1.email = d2.email)
    (h4 : d1.message = d2.message) :
    (handleFormSubmit callOk origLabel d1).map eraseService =
      (handleFormSubmit callOk origLabel d2).map eraseService := by
  obtain ⟨f1, l1, e1, m1, s1⟩ := d1
  obtain ⟨f2, l2, e2, m2, s2⟩ := d2
  simp only at h1 h2 h3 h4
  subst h1; subst h2; subst h3; subst h4
  simp only [handleFormSubmit, requiredMissing]
  split_ifs <;> simp [eraseService]

/-- Witness for C10: a submission with a service choice and one without
produce the same control-flow trace. -/
theorem service_field_noninterference_w :
    (handleFormSubmit true "Send Message"
        ⟨"Jane", "Doe", "jane@doe.com", "hello", some "ai-solutions"⟩).map eraseService =
      (handleFormSubmit true "Send Message"
        ⟨"Jane", "Doe", "jane@doe.com", "hello", none⟩).map eraseService :=
  service_field_noninterference true "Send Message"
    ⟨"Jane", "Doe", "jane@doe.com", "hello", some "ai-solutions"⟩
    ⟨"Jane", "Doe", "jane@doe.com", "hello", none⟩ rfl rfl rfl rfl

/-- Counterexample to claim C1 as stated: with every handle present
except the mobile-menu toggle — a required handle named by the claim —
initialization does not degrade gracefully: `bindEvents` dereferences the
null handle and the thrown TypeError propagates out of `init`, so none of
the remaining behaviors get wired. -/
theorem init_throws_on_missing_menu_toggle :
    init ⟨true, false, true, true, true, true, true⟩ =
      .error "TypeError: cannot read addEventListener of null (mobile-menu-toggle)" := rfl

/-- Claim C1 (amended): only the contact-form handle is guarded.  When
the three mobile-menu handles are present, initialization completes
whatever the other handles' state — a missing header or toast does not
disturb it — wiring every behavior and skipping exactly the form-submit
wiring when the form is absent.  (When a mobile-menu handle is missing,
`init_throws_on_missing_menu_toggle` shows initialization throws.) -/
theorem init_guarded_only_for_contact_form (env : DomEnv)
    (h : (env.mobileMenuToggle && env.mobileMenuClose && env.mobileMenuOverlay) = true) :
    init env = .ok (wiredBindings env.contactForm) ∧
    (Binding.formSubmit ∈ wiredBindings env.contactForm ↔ env.contactForm = true) ∧
    Binding.windowScrollThrottled ∈ wiredBindings env.contactForm ∧
    Binding.keydown ∈ wiredBindings env.contactForm ∧
    Binding.menuToggleClick ∈ wiredBindings env.contactForm ∧
    Binding.anchorSmoothScroll ∈ wiredBindings env.contactForm := by
  obtain ⟨hh, mt, mo, mc, cf, tst, hb⟩ := env
  simp only [Bool.and_eq_true] at h
  obtain ⟨⟨h1, h2⟩, h3⟩ := h
  subst h1; subst h2; subst h3
  refine ⟨rfl, ?_, ?_, ?_, ?_, ?_⟩ <;> cases cf <;> simp [wiredBindings]

/-- Witness for the amended C1: all mobile-menu handles present, header,
toast and the contact form absent — initialization still completes and
the submit wiring alone is skipped. -/
theorem init_guarded_only_for_contact_form_w :
    init ⟨false, true, true, true, false, false, false⟩ =
      .ok (wiredBindings false) ∧
    (Binding.formSubmit ∈ wiredBindings false ↔ false = true) ∧
    Binding.windowScrollThrottled ∈ wiredBindings false ∧
    Binding.keydown ∈ wiredBindings false ∧
    Binding.menuToggleClick ∈ wiredBindings false ∧
    Binding.anchorSmoothScroll ∈ wiredBindings false :=
  init_guarded_only_for_contact_form ⟨false, true, true, true, false, false, false⟩ (by decide)

/-- Claim C3, evaluated at its failing input: `showToast` at t = 0 ms and
again at t = 3000 ms.  Right after the second call one toast is visible
with the second call's content — but the first call's un-cancelled timer
fires at t = 5000 ms and removes the `show` class, so at t = 6000 ms the
toast is already hidden, though the claimed restarted expiry would keep
it visible until t = 8000 ms. -/
theorem toast_timer_not_restarted :
    toastStateAt [⟨0, ⟨"Success", "first", "success"⟩⟩,
                  ⟨3000, ⟨"Error", "second", "error"⟩⟩] 3000 =
      ⟨some ⟨"Error", "second", "error"⟩, true⟩ ∧
    toastStateAt [⟨0, ⟨"Success", "first", "success"⟩⟩,
                  ⟨3000, ⟨"Error", "second", "error"⟩⟩] 6000 =
      ⟨some ⟨"Error", "second", "error"⟩, false⟩ := by decide

/-- A character of the class `[^\s@]` is neither whitespace nor `'@'`. -/
lemma nsChar_spec {c : Char} (h : nsChar c = true) : c.isWhitespace = false ∧ c ≠ '@' := by
  simpa [nsChar] using h

/-- Lists accepted by `dotTail` consist of `[^\s@]` characters and
contain a dot. -/
lemma dotTail_spec (l : List Char) (h : dotTail l = true) :
    (∀ c ∈ l, nsChar c = true) ∧ '.' ∈ l := by
  induction l with
  | nil => simp [dotTail] at h
  | cons c cs ih =>
    rw [dotTail, Bool.or_eq_true] at h
    rcases h with h1 | h2
    · simp only [Bool.and_eq_true, beq_iff_eq] at h1
      obtain ⟨⟨hc, _⟩, hall⟩ := h1
      subst hc
      refine ⟨?_, List.mem_cons_self _ _⟩
      intro x hx
      rcases List.mem_cons.mp hx with rfl | hx
      · decide
      · exact List.all_eq_true.mp hall x hx
    · rw [Bool.and_eq_true] at h2
      obtain ⟨hc, hrec⟩ := h2
      obtain ⟨hall, hdot⟩ := ih hrec
      refine ⟨?_, List.mem_cons_of_mem _ hdot⟩
      intro x hx
      rcases List.mem_cons.mp hx with rfl | hx
      · exact hc
      · exact hall x hx

/-- Lists accepted by `domainPart` consist of `[^\s@]` characters and
contain a dot. -/
lemma domainPart_spec (l : List Char) (h : domainPart l = true) :
    (∀ c ∈ l, nsChar c = true) ∧ '.' ∈ l := by
  cases l with
  | nil => simp [domainPart] at h
  | cons c cs =>
    rw [domainPart, Bool.and_eq_true] at h
    obtain ⟨hc, hdt⟩ := h
    obtain ⟨hall, hdot⟩ := dotTail_spec cs hdt
    refine ⟨?_, List.mem_cons_of_mem _ hdot⟩
    intro x hx
    rcases List.mem_cons.mp hx with rfl | hx
    · exact hc
    · exact hall x hx

/-- Lists accepted by `emailTail` carry exactly one `'@'`, a dot after
it, and no whitespace. -/
lemma emailTail_spec (l : List Char) (h : emailTail l = true) :
    l.count '@' = 1 ∧ '.' ∈ (l.dropWhile (fun c => c != '@')).drop 1 ∧
    ∀ c ∈ l, c.isWhitespace = false := by
  induction l with
  | nil => simp [emailTail] at h
  | cons c cs ih =>
    rw [emailTail] at h
    by_cases hc : c = '@'
    · subst hc
      rw [if_pos (show ('@' == '@') = true from rfl)] at h
      obtain ⟨hall, hdot⟩ := domainPart_spec cs h
      refine ⟨?_, ?_, ?_⟩
      · rw [List.count_cons_self]
        have : cs.count '@' = 0 := by
          rw [List.count_eq_zero]
          intro hmem
          have := (nsChar_spec (hall _ hmem)).2
          exact this rfl
        omega
      · simpa [List.dropWhile_cons] using hdot
      · intro x hx
        rcases List.mem_cons.mp hx with rfl | hx
        · decide
        · exact (nsChar_spec (hall x hx)).1
    · rw [if_neg (by simpa using hc), Bool.and_eq_true] at h
      obtain ⟨hns, hrec⟩ := h
      obtain ⟨hcount, hdot, hws⟩ := ih hrec
      refine ⟨?_, ?_, ?_⟩
      · rw [List.count_cons_of_ne (fun hh => hc hh.symm)]
        exact hcount
      · simpa [List.dropWhile_cons, hc] using hdot
      · intro x hx
        rcases List.mem_cons.mp hx with rfl | hx
        · exact (nsChar_spec hns).1
        · exact hws x hx

/-- Every string accepted by the validator satisfies the spec's
characterization (the necessity direction). -/
lemma emailValid_necessity (s : String) (h : emailValid s = true) :
    claimEmailPattern s := by
  unfold claimEmailPattern
  rw [emailValid] at h
  rcases hl : s.toList with _ | ⟨c, cs⟩ <;> rw [hl] at h
  · simp at h
  · simp only [Bool.and_eq_true] at h
    obtain ⟨hns, ht⟩ := h
    obtain ⟨hcount, hdot, hws⟩ := emailTail_spec cs ht
    obtain ⟨hwsc, hnec⟩ := nsChar_spec hns
    refine ⟨?_, ?_, ?_⟩
    · rw [List.count_cons_of_ne (fun hh => hnec hh.symm)]
      exact hcount
    · simpa [List.dropWhile_cons, hnec] using hdot
    · intro x hx
      rcases List.mem_cons.mp hx with rfl | hx
      · simp [hwsc]
      · simp [hws x hx]

/-- Counterexample to claim C5 as stated: `"a@b."` has exactly one `'@'`,
a `'.'` after it, and no whitespace — the claim's "accepts exactly"
characterization admits it — yet the validator's regex rejects it,
because the dot needs a non-empty `[^\s@]` run on each side. -/
theorem email_claim_pattern_mismatch :
    claimEmailPattern "a@b." ∧ emailValid "a@b." = false := by decide

/-- Claim C5 (amended): the validator passes `"a@b.co"` and rejects
`"a@b"` and `"a b@c.com"`; in general the claim's conditions — one
`'@'`, at least one `'.'` after it, no whitespace — are necessary for
acceptance but not sufficient: the regex further requires a non-empty
run of non-whitespace, non-`'@'` characters on each side of a dot after
the `'@'` (so `"a@b."` is rejected). -/
theorem emailValid_characterization :
    emailValid "a@b.co" = true ∧ emailValid "a@b" = false ∧
    emailValid "a b@c.com" = false ∧
    ∀ s : String, emailValid s = true → claimEmailPattern s :=
  ⟨by decide, by decide, by decide, emailValid_necessity⟩

/-- Witness for the amended C5 at the concrete accepted address. -/
theorem emailValid_characterization_w : claimEmailPattern "a@b.co" :=
  emailValid_characterization.2.2.2 "a@b.co" (by decide)

/-- The throttled handler only ever runs on actual events, in order:
dropped events are discarded, never queued. -/
lemma throttleRun_sublist (limit : Nat) (evs : List ScrollEv) (st : Option Nat) :
    List.Sublist (throttleRun limit evs st) evs := by
  induction evs generalizing st with
  | nil => cases st <;> simp [throttleRun]
  | cons a rest ih =>
    cases st with
    | none => exact List.Sublist.cons₂ a (ih _)
    | some u =>
      rw [throttleRun]
      by_cases hlt : a.t < u
      · rw [if_pos hlt]
        exact List.Sublist.cons a (ih _)
      · rw [if_neg hlt]
        exact List.Sublist.cons₂ a (ih _)

/-- While the throttle flag is set until time `u`, every executed event
is at `u` or later. -/
lemma throttleRun_lower (limit : Nat) (evs : List ScrollEv) (u : Nat) :
    ∀ e ∈ throttleRun limit evs (some u), u ≤ e.t := by
  induction evs generalizing u with
  | nil => simp [throttleRun]
  | cons a rest ih =>
    intro e he
    rw [throttleRun] at he
    by_cases hlt : a.t < u
    · rw [if_pos hlt] at he
      exact ih u e he
    · rw [if_neg hlt] at he
      rcases List.mem_cons.mp he with rfl | hmem
      · omega
      · have h2 := ih (a.t + limit) e hmem
        omega

/-- Consecutive executions of the throttled handler are at least `limit`
milliseconds apart. -/
lemma throttleRun_chain (limit : Nat) (evs : List ScrollEv) (st : Option Nat) :
    List.Chain' (fun a b => a.t + limit ≤ b.t) (throttleRun limit evs st) := by
  induction evs generalizing st with
  | nil => cases st <;> simp [throttleRun]
  | cons a rest ih =>
    cases st with
    | none =>
      rw [throttleRun, List.chain'_cons']
      exact ⟨fun b hb =>
        throttleRun_lower limit rest (a.t + limit) b (List.mem_of_mem_head? hb), ih _⟩
    | some u =>
      rw [throttleRun]
      by_cases hlt : a.t < u
      · rw [if_pos hlt]
        exact ih _
      · rw [if_neg hlt, List.chain'_cons']
        exact ⟨fun b hb =>
          throttleRun_lower limit rest (a.t + limit) b (List.mem_of_mem_head? hb), ih _⟩

/-- In a strictly chronological event list, each event's offset is the
most recent one at its own time. -/
lemma lastPosAt_mem (evs : List ScrollEv)
    (hs : evs.Pairwise (fun a b => a.t < b.t)) (e : ScrollEv) (he : e ∈ evs) :
    lastPosAt evs e.t = some e.pos := by
  induction evs with
  | nil => simp at he
  | cons a rest ih =>
    rw [List.pairwise_cons] at hs
    obtain ⟨ha, hrest⟩ := hs
    rcases List.mem_cons.mp he with rfl | hmem
    · unfold lastPosAt
      rw [List.filter_cons, if_pos (by simp)]
      have hfil : rest.filter (fun x => decide (x.t ≤ e.t)) = [] := by
        rw [List.filter_eq_nil_iff]
        intro x hx
        have := ha x hx
        simp only [decide_eq_true_eq]
        omega
      simp [hfil]
    · have ih' := ih hrest hmem
      unfold lastPosAt at ih' ⊢
      rw [List.filter_cons, if_pos (by have := ha e hmem; simp; omega)]
      rcases hnil : (rest.filter (fun x => decide (x.t ≤ e.t))).map (·.pos) with _ | ⟨y, ys⟩
      · rw [hnil] at ih'
        simp at ih'
      · rw [List.map_cons, hnil, List.getLast?_cons_cons]
        rw [hnil] at ih'
        exact ih'

/-- Claim C2: over any strictly chronological sequence of scroll events,
the throttled scroll handler fires at least 16 ms apart (at most once per
throttle window); the events it fires on form a sublist of the input
(excess events are dropped, not queued); and each firing acts on the
offset current at that moment — the most recent scroll position. -/
theorem throttled_scroll_rate_limited (evs : List ScrollEv)
    (hchrono : evs.Pairwise (fun a b => a.t < b.t)) :
    List.Chain' (fun a b => a.t + 16 ≤ b.t) (throttledScroll evs) ∧
    List.Sublist (throttledScroll evs) evs ∧
    ∀ e ∈ throttledScroll evs, lastPosAt evs e.t = some e.pos := by
  refine ⟨throttleRun_chain 16 evs none, throttleRun_sublist 16 evs none, ?_⟩
  intro e he
  exact lastPosAt_mem evs hchrono e ((throttleRun_sublist 16 evs none).mem he)

/-- Witness for C2: three events 5 ms and 15 ms apart; the middle one
falls inside the 16 ms window and is dropped. -/
theorem throttled_scroll_rate_limited_w :
    List.Chain' (fun a b => a.t + 16 ≤ b.t)
      (throttledScroll [⟨0, 10⟩, ⟨5, 60⟩, ⟨20, 100⟩]) ∧
    List.Sublist (throttledScroll [⟨0, 10⟩, ⟨5, 60⟩, ⟨20, 100⟩])
      [⟨0, 10⟩, ⟨5, 60⟩, ⟨20, 100⟩] ∧
    ∀ e ∈ throttledScroll [⟨0, 10⟩, ⟨5, 60⟩, ⟨20, 100⟩],
      lastPosAt [⟨0, 10⟩, ⟨5, 60⟩, ⟨20, 100⟩] e.t = some e.pos :=
  throttled_scroll_rate_limited [⟨0, 10⟩, ⟨5, 60⟩, ⟨20, 100⟩] (by decide)

end LogicLayer
